import Mathlib

/-!
# Verification of the Supabase MCP server's query-translation core

Shallow embedding of the two source files `supabase_client.py` (the query
translator `SupabaseClient`) and `server.py` (the four MCP tool adapters).
Python dictionaries are modelled as insertion-ordered association lists,
`None`-able parameters as `Option`, and Python truthiness tests (`if filters:`,
`if limit:`) are embedded explicitly.  The Supabase backend itself is an
external collaborator; its query execution is modelled from the spec's contract
(equality filter, order, limit, offset, single execute) as `runOp`.
-/

namespace SupabaseMCP

/-- JSON-compatible scalar values carried in records and filters. -/
inductive Value where
  | vNull : Value
  | vBool : Bool → Value
  | vInt : Int → Value
  | vStr : String → Value
deriving DecidableEq

/-- Constructor rank, used to compare values of different kinds. -/
def Value.rank : Value → Nat
  | .vNull => 0
  | .vBool _ => 1
  | .vInt _ => 2
  | .vStr _ => 3

/-- Total comparison on scalar values: same-kind values compare by their
payload, distinct kinds by constructor rank. -/
def Value.leb : Value → Value → Bool
  | .vNull, .vNull => true
  | .vBool a, .vBool b => !a || b
  | .vInt a, .vInt b => decide (a ≤ b)
  | .vStr a, .vStr b => decide (a ≤ b)
  | x, y => decide (x.rank ≤ y.rank)

/-- A row: an insertion-ordered mapping from column name to value. -/
abbrev Record := List (String × Value)

/-- A filter set / update mapping: ordered column-value pairs. -/
abbrev Filters := List (String × Value)

/-- Column lookup in a record (first binding wins, as in a Python dict). -/
def getCol (r : Record) (c : String) : Option Value :=
  (r.find? (fun cv => cv.1 = c)).map (fun cv => cv.2)

/-- Comparison on optional column values: absent values sort first. -/
def ovalLeb : Option Value → Option Value → Bool
  | none, _ => true
  | some _, none => false
  | some x, some y => x.leb y

/-- Python truthiness of an `Optional[int]`: `None` and `0` are falsy. -/
def truthyInt : Option Int → Bool
  | none => false
  | some n => decide (n ≠ 0)

/-- Python truthiness of an `Optional[dict]`: `None` and `{}` are falsy. -/
def truthyDict {α : Type} : Option (List α) → Bool
  | none => false
  | some l => !l.isEmpty

/-- Python truthiness of an `Optional[str]`: `None` and `""` are falsy. -/
def truthyStr : Option String → Bool
  | none => false
  | some s => !s.isEmpty

/-- The composed select query accumulated by the translator before its single
`execute` call: table, column selector, equality constraints, sort clauses
(column, descending-flag), and optional limit/offset. -/
structure Query where
  table : String
  columns : String
  eqs : Filters
  orders : List (String × Bool)
  lim : Option Int
  off : Option Int
deriving DecidableEq

/-- The payload of a create call: one record or a batch, as in
`Union[Dict[str, Any], List[Dict[str, Any]]]`. -/
inductive RecordsArg where
  | one : Record → RecordsArg
  | many : List Record → RecordsArg

/-- The rows an insert payload denotes: a single dict inserts one row, a list
of N dicts inserts N rows. -/
def RecordsArg.toRows : RecordsArg → List Record
  | .one r => [r]
  | .many rs => rs

/-- The single backend operation each translator method composes and then
executes exactly once. -/
inductive Op where
  | select : Query → Op
  | insert : String → RecordsArg → Op
  | update : String → Filters → Filters → Op
  | delete : String → Filters → Op

/-- Python's `str.lower()` restricted to its ASCII behaviour, which is all the
direction tokens use. -/
def strLower (s : String) : String :=
  String.mk (s.data.map Char.toLower)

namespace SupabaseClient

/-- The select query `SupabaseClient.read_records` composes before its single
`execute`: the source's truthiness checks (`if filters:`, `if order_by:`,
`if limit:`, `if offset:`) and the `direction.lower() == "asc"` branch. -/
def readQuery (table : String) (columns : String)
    (filters : Option Filters) (limit offset : Option Int)
    (order_by : Option (List (String × String))) : Query :=
  let q : Query := ⟨table, columns, [], [], none, none⟩
  let q := if truthyDict filters then
      (filters.getD []).foldl (fun q cv => { q with eqs := q.eqs ++ [cv] }) q
    else q
  let q := if truthyDict order_by then
      (order_by.getD []).foldl (fun q cd =>
        if strLower cd.2 = "asc" then { q with orders := q.orders ++ [(cd.1, false)] }
        else { q with orders := q.orders ++ [(cd.1, true)] }) q
    else q
  let q := if truthyInt limit then { q with lim := limit } else q
  let q := if truthyInt offset then { q with off := offset } else q
  q

/-- Embedding of `SupabaseClient.read_records`: builds the select query and
executes it once. -/
def read_records (table : String) (columns : String)
    (filters : Option Filters) (limit offset : Option Int)
    (order_by : Option (List (String × String))) : Op :=
  .select (readQuery table columns filters limit offset order_by)

/-- Embedding of `SupabaseClient.create_records`: the payload is passed as-is
to one backend insert. -/
def create_records (table : String) (records : RecordsArg) : Op :=
  .insert table records

/-- Embedding of `SupabaseClient.update_records`: every filter entry becomes an
equality constraint (no truthiness guard on `filters`), then one update. -/
def update_records (table : String) (updates : Filters) (filters : Filters) : Op :=
  .update table (filters.foldl (fun acc cv => acc ++ [cv]) []) updates

/-- Embedding of `SupabaseClient.delete_records`: every filter entry becomes an
equality constraint (no truthiness guard on `filters`), then one delete. -/
def delete_records (table : String) (filters : Filters) : Op :=
  .delete table (filters.foldl (fun acc cv => acc ++ [cv]) [])

end SupabaseClient

/-- Backend state: every table name denotes a list of rows. -/
abbrev DB := String → List Record

/-- Modelled from the spec: a row matches a filter set when every entry holds
as an equality (`column = value`), conjunctively. -/
def matchesFilters (eqs : Filters) (r : Record) : Bool :=
  eqs.all (fun cv => decide (getCol r cv.1 = some cv.2))

/-- Modelled from the spec: applying one sort clause is a stable sort on the
named column, descending when the flag is set. -/
def keyLe (desc : Bool) (c : String) (a b : Record) : Prop :=
  (if desc then ovalLeb (getCol b c) (getCol a c)
   else ovalLeb (getCol a c) (getCol b c)) = true

instance (desc : Bool) (c : String) : DecidableRel (keyLe desc c) :=
  fun _ _ => decEq _ _

/-- Modelled from the spec: sort clauses apply in order, the first being the
primary key; realized by folding stable sorts from the last clause inward. -/
def applyOrders (orders : List (String × Bool)) (rows : List Record) : List Record :=
  orders.foldr (fun cd rs => rs.insertionSort (keyLe cd.2 cd.1)) rows

/-- Modelled from the spec: offset skips rows before the window, then limit
caps the row count. -/
def applySlice (lim off : Option Int) (rows : List Record) : List Record :=
  let rows := match off with
    | none => rows
    | some o => rows.drop o.toNat
  match lim with
  | none => rows
  | some l => rows.take l.toNat

/-- Modelled from the spec: executing a composed select query filters the
table's rows conjunctively, sorts, then slices — returning rows verbatim. -/
def selectRows (db : DB) (q : Query) : List Record :=
  applySlice q.lim q.off (applyOrders q.orders ((db q.table).filter (matchesFilters q.eqs)))

/-- Modelled from the spec: updating a record overwrites (or appends) each
updated column, leaving the others unchanged. -/
def applyUpdates (upd : Filters) (r : Record) : Record :=
  upd.foldl (fun r cv =>
    if (r.find? (fun p => p.1 = cv.1)).isSome then
      r.map (fun p => if p.1 = cv.1 then (p.1, cv.2) else p)
    else r ++ [cv]) r

/-- Modelled from the spec: the backend's single synchronous execute.  `gen`
stands for backend-assigned fields on insert (primary keys, timestamps).
A select leaves the state untouched; update rewrites matching rows and
returns their post-update state; delete removes matching rows and returns
their pre-deletion snapshot. -/
def runOp (gen : Record → Record) (db : DB) : Op → DB × List Record
  | .select q => (db, selectRows db q)
  | .insert t arg =>
      let newRows := arg.toRows.map gen
      (fun t' => if t' = t then db t' ++ newRows else db t', newRows)
  | .update t eqs upd =>
      (fun t' => if t' = t then
          (db t').map (fun r => if matchesFilters eqs r then applyUpdates upd r else r)
        else db t',
       ((db t).filter (matchesFilters eqs)).map (applyUpdates upd))
  | .delete t eqs =>
      (fun t' => if t' = t then (db t').filter (fun r => !matchesFilters eqs r) else db t',
       (db t).filter (matchesFilters eqs))

/-- A value of the JSON object returned by a tool: an error string or a list
of records. -/
inductive EnvVal where
  | vstr : String → EnvVal
  | vrecs : List Record → EnvVal
deriving DecidableEq

/-- The tool's returned JSON object, as an insertion-ordered key-value list. -/
abbrev Env := List (String × EnvVal)

/-- The success envelope `\x7b"records": rs\x7d`. -/
def okEnv (rs : List Record) : Env := [("records", .vrecs rs)]

/-- The failure envelope `\x7b"error": str(e), "records": []\x7d`. -/
def errEnv (e : String) : Env := [("error", .vstr e), ("records", .vrecs [])]

/-- The `try/except Exception` wrapping every tool body uses: a result becomes
the success envelope, a raised exception the error envelope. -/
def wrapResult : Except String (List Record) → Env
  | .ok rs => okEnv rs
  | .error e => errEnv e

namespace Server

/-- Embedding of the `read_records` tool: try the translator call, wrap the
result, catch any exception into the error envelope.  `exec` is the backend
execution, which may raise. -/
def read_records (exec : Op → Except String (List Record))
    (table : String) (columns : String) (filters : Option Filters)
    (limit offset : Option Int) (order_by : Option (List (String × String))) : Env :=
  wrapResult (exec (SupabaseClient.read_records table columns filters limit offset order_by))

/-- Embedding of the `create_records` tool. -/
def create_records (exec : Op → Except String (List Record))
    (table : String) (records : RecordsArg) : Env :=
  wrapResult (exec (SupabaseClient.create_records table records))

/-- Embedding of the `update_records` tool. -/
def update_records (exec : Op → Except String (List Record))
    (table : String) (updates : Filters) (filters : Filters) : Env :=
  wrapResult (exec (SupabaseClient.update_records table updates filters))

/-- Embedding of the `delete_records` tool. -/
def delete_records (exec : Op → Except String (List Record))
    (table : String) (filters : Filters) : Env :=
  wrapResult (exec (SupabaseClient.delete_records table filters))

end Server

/-- Embedding of `SupabaseClient.__init__`: reads the two environment
variables and raises `ValueError` when `not self.url or not self.key`
(Python truthiness: absent or empty string). -/
def clientInit (url key : Option String) : Except String (String × String) :=
  if !truthyStr url || !truthyStr key then
    .error "Missing required environment variables: SUPABASE_URL and SUPABASE_SERVICE_ROLE_KEY must be set"
  else
    .ok (url.getD "", key.getD "")

/-- The four tool names `server.py` registers. -/
def toolNames : List String :=
  ["read_records", "create_records", "update_records", "delete_records"]

/-- Embedding of module-level startup in `server.py`: `supabase =
SupabaseClient()` runs before any tool registration and is wrapped in no
try/except, so a constructor error propagates and no tool becomes
available. -/
def serverStartup (url key : Option String) : Except String (List String) :=
  match clientInit url key with
  | .error e => .error e
  | .ok _ => .ok toolNames

/-- A one-row table named "t", for exercising the translator concretely. -/
def db1 : DB := fun t => if t = "t" then [[("id", Value.vInt 1)]] else []

/-- A two-row table named "t" with distinct `created_at` values. -/
def db2 : DB := fun t =>
  if t = "t" then [[("created_at", Value.vInt 1)], [("created_at", Value.vInt 2)]] else []

/-! ## Order-relation facts used by the sorting model -/

theorem Value.leb_total (x y : Value) : x.leb y = true ∨ y.leb x = true := by
  cases x <;> cases y <;> simp [Value.leb, Value.rank] <;>
    first
    | omega
    | exact le_total _ _
    | (rename_i a b; cases a <;> cases b <;> simp)

theorem Value.leb_trans {x y z : Value} (h1 : x.leb y = true) (h2 : y.leb z = true) :
    x.leb z = true := by
  cases x <;> cases y <;> cases z <;> simp_all [Value.leb, Value.rank] <;>
    first
    | omega
    | exact le_trans h1 h2
    | (rename_i a b c; cases a <;> cases b <;> cases c <;> simp_all)

theorem ovalLeb_total (x y : Option Value) : ovalLeb x y = true ∨ ovalLeb y x = true := by
  cases x <;> cases y <;> simp [ovalLeb]
  exact Value.leb_total _ _

theorem ovalLeb_trans {x y z : Option Value} (h1 : ovalLeb x y = true)
    (h2 : ovalLeb y z = true) : ovalLeb x z = true := by
  cases x <;> cases y <;> cases z <;> simp_all [ovalLeb]
  exact Value.leb_trans h1 h2

instance (desc : Bool) (c : String) : IsTotal Record (keyLe desc c) := by
  constructor
  intro a b
  cases desc <;> simp [keyLe] <;> exact ovalLeb_total _ _

instance (desc : Bool) (c : String) : IsTrans Record (keyLe desc c) := by
  constructor
  intro a b c' h1 h2
  cases desc <;> simp [keyLe] at *
  · exact ovalLeb_trans h1 h2
  · exact ovalLeb_trans h2 h1

/-! ## Characterization of the composed select query -/

theorem eqsFold_eq (fs : Filters) (q : Query) :
    fs.foldl (fun q cv => { q with eqs := q.eqs ++ [cv] }) q = { q with eqs := q.eqs ++ fs } := by
  induction fs generalizing q with
  | nil => simp
  | cons cv fs ih => simp [ih]

theorem ordersFold_eq (ob : List (String × String)) (q : Query) :
    ob.foldl (fun q cd =>
        if strLower cd.2 = "asc" then { q with orders := q.orders ++ [(cd.1, false)] }
        else { q with orders := q.orders ++ [(cd.1, true)] }) q =
      { q with orders :=
          q.orders ++ ob.map (fun cd => (cd.1, decide (¬ strLower cd.2 = "asc"))) } := by
  induction ob generalizing q with
  | nil => simp
  | cons cd ob ih =>
    by_cases h : strLower cd.2 = "asc" <;> simp [h, ih]

theorem appendFold_eq (fs acc : Filters) :
    fs.foldl (fun acc cv => acc ++ [cv]) acc = acc ++ fs := by
  induction fs generalizing acc with
  | nil => simp
  | cons cv fs ih => simp [ih]

/-- The composed select query, in closed form. -/
theorem readQuery_eq (table columns : String) (filters : Option Filters)
    (limit offset : Option Int) (order_by : Option (List (String × String))) :
    SupabaseClient.readQuery table columns filters limit offset order_by =
      { table := table, columns := columns,
        eqs := if truthyDict filters then filters.getD [] else [],
        orders := if truthyDict order_by then
            (order_by.getD []).map (fun cd => (cd.1, decide (¬ strLower cd.2 = "asc")))
          else [],
        lim := if truthyInt limit then limit else none,
        off := if truthyInt offset then offset else none } := by
  unfold SupabaseClient.readQuery
  cases h1 : truthyDict filters <;> cases h2 : truthyDict order_by <;>
    cases h3 : truthyInt limit <;> cases h4 : truthyInt offset <;>
      simp [h1, h2, h3, h4, eqsFold_eq, ordersFold_eq]

/-! ## Envelope lemmas -/

theorem wrapResult_error (e : String) : wrapResult (.error e) = errEnv e := rfl

theorem wrapResult_ok (rs : List Record) : wrapResult (.ok rs) = okEnv rs := rfl

theorem wrapResult_lookup_records (r : Except String (List Record)) :
    ∃ rs, (wrapResult r).lookup "records" = some (.vrecs rs) := by
  cases r <;> exact ⟨_, rfl⟩

theorem wrapResult_lookup_error (r : Except String (List Record)) :
    ((wrapResult r).lookup "error").isSome = true ↔ ∃ e, r = .error e := by
  cases r <;> simp [wrapResult, okEnv, errEnv, List.lookup]

/-! ## Claims -/

/-- C1: for each of the four tool operations and every input, if the
underlying translator call raises an exception, the tool returns the envelope
with the stringified message and an empty records list; on success it returns
the success envelope, which carries no error key. -/
theorem claim_C1 (exec : Op → Except String (List Record))
    (table columns : String) (filters : Option Filters) (limit offset : Option Int)
    (order_by : Option (List (String × String))) (updates fs : Filters) (arg : RecordsArg) :
    (∀ e, exec (SupabaseClient.read_records table columns filters limit offset order_by) =
        .error e →
      Server.read_records exec table columns filters limit offset order_by = errEnv e) ∧
    (∀ rs, exec (SupabaseClient.read_records table columns filters limit offset order_by) =
        .ok rs →
      Server.read_records exec table columns filters limit offset order_by = okEnv rs) ∧
    (∀ e, exec (SupabaseClient.create_records table arg) = .error e →
      Server.create_records exec table arg = errEnv e) ∧
    (∀ rs, exec (SupabaseClient.create_records table arg) = .ok rs →
      Server.create_records exec table arg = okEnv rs) ∧
    (∀ e, exec (SupabaseClient.update_records table updates fs) = .error e →
      Server.update_records exec table updates fs = errEnv e) ∧
    (∀ rs, exec (SupabaseClient.update_records table updates fs) = .ok rs →
      Server.update_records exec table updates fs = okEnv rs) ∧
    (∀ e, exec (SupabaseClient.delete_records table fs) = .error e →
      Server.delete_records exec table fs = errEnv e) ∧
    (∀ rs, exec (SupabaseClient.delete_records table fs) = .ok rs →
      Server.delete_records exec table fs = okEnv rs) := by
  refine ⟨?_, ?_, ?_, ?_, ?_, ?_, ?_, ?_⟩ <;> intro x h <;>
    simp [Server.read_records, Server.create_records, Server.update_records,
      Server.delete_records, h, wrapResult]

/-- Witness for C1: a backend that raises yields the error envelope, a backend
that succeeds yields the success envelope, at concrete inputs. -/
theorem claim_C1_witness :
    Server.read_records (fun _ => .error "boom") "t" "*" none none none none = errEnv "boom" ∧
    Server.delete_records (fun _ => .ok []) "t" [] = okEnv [] :=
  ⟨(claim_C1 (fun _ => .error "boom") "t" "*" none none none none [] []
      (.one [])).1 "boom" rfl,
   (claim_C1 (fun _ => .ok []) "t" "*" none none none none [] []
      (.one [])).2.2.2.2.2.2.2 [] rfl⟩

/-- C10: every envelope any of the four tools returns binds the key "records"
to a list of records, and contains the key "error" exactly when the underlying
translator call raised an exception. -/
theorem claim_C10 (exec : Op → Except String (List Record))
    (table columns : String) (filters : Option Filters) (limit offset : Option Int)
    (order_by : Option (List (String × String))) (updates fs : Filters) (arg : RecordsArg) :
    ((∃ rs, (Server.read_records exec table columns filters limit offset order_by).lookup
        "records" = some (.vrecs rs)) ∧
      (((Server.read_records exec table columns filters limit offset order_by).lookup
          "error").isSome = true ↔
        ∃ e, exec (SupabaseClient.read_records table columns filters limit offset order_by) =
          .error e)) ∧
    ((∃ rs, (Server.create_records exec table arg).lookup "records" = some (.vrecs rs)) ∧
      (((Server.create_records exec table arg).lookup "error").isSome = true ↔
        ∃ e, exec (SupabaseClient.create_records table arg) = .error e)) ∧
    ((∃ rs, (Server.update_records exec table updates fs).lookup "records" =
        some (.vrecs rs)) ∧
      (((Server.update_records exec table updates fs).lookup "error").isSome = true ↔
        ∃ e, exec (SupabaseClient.update_records table updates fs) = .error e)) ∧
    ((∃ rs, (Server.delete_records exec table fs).lookup "records" = some (.vrecs rs)) ∧
      (((Server.delete_records exec table fs).lookup "error").isSome = true ↔
        ∃ e, exec (SupabaseClient.delete_records table fs) = .error e)) :=
  ⟨⟨wrapResult_lookup_records _, wrapResult_lookup_error _⟩,
   ⟨wrapResult_lookup_records _, wrapResult_lookup_error _⟩,
   ⟨wrapResult_lookup_records _, wrapResult_lookup_error _⟩,
   ⟨wrapResult_lookup_records _, wrapResult_lookup_error _⟩⟩

/-- C7: a successful create with a single record returns exactly one record,
and with a batch of N records returns exactly N records, whatever fields the
backend assigns. -/
theorem claim_C7 (gen : Record → Record) (db : DB) (t : String) (r : Record)
    (rs : List Record) :
    (runOp gen db (SupabaseClient.create_records t (.one r))).2.length = 1 ∧
    (runOp gen db (SupabaseClient.create_records t (.many rs))).2.length = rs.length := by
  constructor <;> simp [runOp, SupabaseClient.create_records, RecordsArg.toRows]

/-- C9: a read composes exactly one select operation (no insert, update or
delete), executing it leaves the backend state unchanged, and the returned
rows are exactly the backend's response for the composed query, with no
client-side post-processing. -/
theorem claim_C9 (gen : Record → Record) (db : DB) (table columns : String)
    (filters : Option Filters) (limit offset : Option Int)
    (order_by : Option (List (String × String))) :
    (∃ q, SupabaseClient.read_records table columns filters limit offset order_by =
      .select q) ∧
    (runOp gen db (SupabaseClient.read_records table columns filters limit offset
      order_by)).1 = db ∧
    (runOp gen db (SupabaseClient.read_records table columns filters limit offset
      order_by)).2 =
      selectRows db (SupabaseClient.readQuery table columns filters limit offset order_by) :=
  ⟨⟨_, rfl⟩, rfl, rfl⟩

/-- C8: if either connectivity credential is absent or empty at startup,
client construction raises and the error propagates uncaught, so no tool
becomes available; if both are present and non-empty, construction succeeds
and the four tools are registered. -/
theorem claim_C8 (url key : Option String) :
    ((truthyStr url = false ∨ truthyStr key = false) →
      ∃ e, serverStartup url key = .error e) ∧
    (truthyStr url = true → truthyStr key = true →
      serverStartup url key = .ok toolNames) := by
  constructor
  · intro h
    refine ⟨"Missing required environment variables: SUPABASE_URL and SUPABASE_SERVICE_ROLE_KEY must be set", ?_⟩
    rcases h with h | h <;> simp [serverStartup, clientInit, h]
  · intro h1 h2
    simp [serverStartup, clientInit, h1, h2]

/-- Witness for C8: a missing URL aborts startup with no tools; both
credentials present yield the four registered tools. -/
theorem claim_C8_witness :
    (∃ e, serverStartup none (some "k") = .error e) ∧
    serverStartup (some "u") (some "k") = .ok toolNames :=
  ⟨(claim_C8 none (some "k")).1 (Or.inl rfl),
   (claim_C8 (some "u") (some "k")).2 rfl rfl⟩

/-! ## Select-execution helpers -/

theorem selectRows_no_order (db : DB) (q : Query) (h1 : q.orders = [])
    (h2 : q.lim = none) (h3 : q.off = none) :
    selectRows db q = (db q.table).filter (matchesFilters q.eqs) := by
  simp [selectRows, h1, h2, h3, applyOrders, applySlice]

theorem selectRows_single_order (db : DB) (q : Query) (c : String) (flag : Bool)
    (h1 : q.orders = [(c, flag)]) (h2 : q.lim = none) (h3 : q.off = none) :
    selectRows db q =
      ((db q.table).filter (matchesFilters q.eqs)).insertionSort (keyLe flag c) := by
  simp [selectRows, h1, h2, h3, applyOrders, applySlice]

theorem pairwise_selectRows_single_order (db : DB) (q : Query) (c : String) (flag : Bool)
    (h1 : q.orders = [(c, flag)]) (h2 : q.lim = none) (h3 : q.off = none) :
    List.Pairwise (keyLe flag c) (selectRows db q) := by
  rw [selectRows_single_order db q c flag h1 h2 h3]
  exact List.sorted_insertionSort (keyLe flag c) _

/-! ## Remaining claims -/

/-- C5: an update or delete with an empty filter set appends no equality
constraint and applies to every row of the table; no guard rejects the empty
mapping. -/
theorem claim_C5 (gen : Record → Record) (db : DB) (t : String) (upd : Filters) :
    SupabaseClient.update_records t upd [] = .update t [] upd ∧
    SupabaseClient.delete_records t [] = .delete t [] ∧
    (∀ t', (runOp gen db (SupabaseClient.update_records t upd [])).1 t' =
      if t' = t then (db t').map (applyUpdates upd) else db t') ∧
    (runOp gen db (SupabaseClient.update_records t upd [])).2 =
      (db t).map (applyUpdates upd) ∧
    (∀ t', (runOp gen db (SupabaseClient.delete_records t [])).1 t' =
      if t' = t then [] else db t') ∧
    (runOp gen db (SupabaseClient.delete_records t [])).2 = db t := by
  have hm : matchesFilters ([] : Filters) = fun _ => true := rfl
  refine ⟨rfl, rfl, ?_, ?_, ?_, ?_⟩ <;>
    simp [runOp, SupabaseClient.update_records, SupabaseClient.delete_records, hm]

/-- C6: a read with a non-empty filter mapping appends exactly one equality
constraint per entry in mapping order, and selects exactly the rows satisfying
the conjunction of all the constraints. -/
theorem claim_C6 (gen : Record → Record) (db : DB) (t cols : String) (fs : Filters)
    (h : fs ≠ []) :
    (SupabaseClient.readQuery t cols (some fs) none none none).eqs = fs ∧
    (runOp gen db (SupabaseClient.read_records t cols (some fs) none none none)).2 =
      (db t).filter (matchesFilters fs) ∧
    ∀ r, r ∈ (runOp gen db (SupabaseClient.read_records t cols (some fs) none none none)).2 ↔
      r ∈ db t ∧ ∀ cv ∈ fs, getCol r cv.1 = some cv.2 := by
  have htr : truthyDict (some fs) = true := by
    cases fs with
    | nil => exact absurd rfl h
    | cons a l => rfl
  have heqs : (SupabaseClient.readQuery t cols (some fs) none none none).eqs = fs := by
    rw [readQuery_eq]; simp [htr]
  have hres : (runOp gen db (SupabaseClient.read_records t cols (some fs) none none none)).2 =
      (db t).filter (matchesFilters fs) := by
    show selectRows db (SupabaseClient.readQuery t cols (some fs) none none none) = _
    rw [selectRows_no_order db _ (by rw [readQuery_eq]; rfl) (by rw [readQuery_eq]; rfl)
      (by rw [readQuery_eq]; rfl), heqs, readQuery_eq]
  refine ⟨heqs, hres, ?_⟩
  intro r
  rw [hres]
  simp [List.mem_filter, matchesFilters]

/-- Witness for C6: with the one-entry filter set id = 1 on a one-row table,
the single matching row is selected. -/
theorem claim_C6_witness :
    [("id", Value.vInt 1)] ≠ ([] : Filters) ∧
    (runOp id db1 (SupabaseClient.read_records "t" "*" (some [("id", Value.vInt 1)])
      none none none)).2 = (db1 "t").filter (matchesFilters [("id", Value.vInt 1)]) :=
  ⟨by decide,
   (claim_C6 id db1 "t" "*" [("id", Value.vInt 1)] (by decide)).2.1⟩

/-- C2 (amended): a limit of exactly 0 and an offset of exactly 0 are falsy in
the source's truthiness checks, so neither clause is appended to the composed
query: the read behaves exactly as if both parameters were absent (it returns
all otherwise-selected rows, not zero rows). -/
theorem claim_C2 (gen : Record → Record) (db : DB) (table columns : String)
    (filters : Option Filters) (order_by : Option (List (String × String))) :
    SupabaseClient.readQuery table columns filters (some 0) (some 0) order_by =
      SupabaseClient.readQuery table columns filters none none order_by ∧
    (SupabaseClient.readQuery table columns filters (some 0) (some 0) order_by).lim = none ∧
    (SupabaseClient.readQuery table columns filters (some 0) (some 0) order_by).off = none ∧
    (runOp gen db (SupabaseClient.read_records table columns filters (some 0) (some 0)
      order_by)).2 =
      (runOp gen db (SupabaseClient.read_records table columns filters none none
        order_by)).2 := by
  have h : SupabaseClient.readQuery table columns filters (some 0) (some 0) order_by =
      SupabaseClient.readQuery table columns filters none none order_by := by
    rw [readQuery_eq, readQuery_eq]; rfl
  refine ⟨h, ?_, ?_, ?_⟩
  · rw [readQuery_eq]; rfl
  · rw [readQuery_eq]; rfl
  · show selectRows db _ = selectRows db _
    rw [h]

/-- C2 counterexample: on a one-row table, a read with limit = 0 returns the
one row, not zero rows — limit 0 is treated as absent, contradicting the
claim that the composed query returns zero rows. -/
theorem claim_C2_counterexample :
    (runOp id db1 (SupabaseClient.read_records "t" "*" none (some 0) (some 0) none)).2 =
      [[("id", Value.vInt 1)]] ∧
    ¬ (runOp id db1 (SupabaseClient.read_records "t" "*" none (some 0) (some 0)
      none)).2.length = 0 := by
  constructor <;> decide

/-- C3: each order_by entry appends one sort clause in mapping-iteration
order; the descending flag is set exactly when the direction does not equal
"asc" case-insensitively. -/
theorem claim_C3 (table columns : String) (filters : Option Filters)
    (limit offset : Option Int) (ob : List (String × String)) :
    (SupabaseClient.readQuery table columns filters limit offset (some ob)).orders =
      ob.map (fun cd => (cd.1, decide (¬ strLower cd.2 = "asc"))) := by
  rw [readQuery_eq]
  cases ob with
  | nil => rfl
  | cons cd l => rfl

/-- C4 (amended): ordering by created_at with direction "desc" returns rows in
non-increasing created_at order; direction "asc" returns non-decreasing order;
and any other literal (anything not case-insensitively equal to "asc") also
returns non-increasing (descending) order, not non-decreasing as claimed. -/
theorem claim_C4 (gen : Record → Record) (db : DB) (t cols : String) :
    List.Pairwise (fun a b => ovalLeb (getCol b "created_at") (getCol a "created_at") = true)
      (runOp gen db (SupabaseClient.read_records t cols none none none
        (some [("created_at", "desc")]))).2 ∧
    List.Pairwise (fun a b => ovalLeb (getCol a "created_at") (getCol b "created_at") = true)
      (runOp gen db (SupabaseClient.read_records t cols none none none
        (some [("created_at", "asc")]))).2 ∧
    ∀ d, ¬ strLower d = "asc" →
      List.Pairwise (fun a b => ovalLeb (getCol b "created_at") (getCol a "created_at") = true)
        (runOp gen db (SupabaseClient.read_records t cols none none none
          (some [("created_at", d)]))).2 := by
  have key : ∀ (d : String) (flag : Bool),
      (SupabaseClient.readQuery t cols none none none (some [("created_at", d)])).orders =
        [("created_at", decide (¬ strLower d = "asc"))] := by
    intro d flag
    rw [readQuery_eq]; rfl
  have main : ∀ (d : String) (flag : Bool), decide (¬ strLower d = "asc") = flag →
      List.Pairwise (keyLe flag "created_at")
        (runOp gen db (SupabaseClient.read_records t cols none none none
          (some [("created_at", d)]))).2 := by
    intro d flag hflag
    show List.Pairwise (keyLe flag "created_at")
      (selectRows db (SupabaseClient.readQuery t cols none none none
        (some [("created_at", d)])))
    refine pairwise_selectRows_single_order db _ "created_at" flag ?_ ?_ ?_
    · rw [key d flag, hflag]
    · rw [readQuery_eq]; rfl
    · rw [readQuery_eq]; rfl
  refine ⟨?_, ?_, ?_⟩
  · exact (main "desc" true (by decide)).imp (fun h => by simpa [keyLe] using h)
  · exact (main "asc" false (by decide)).imp (fun h => by simpa [keyLe] using h)
  · intro d hd
    exact (main d true (by simp [hd])).imp (fun h => by simpa [keyLe] using h)

/-- Witness for C4: with direction "foo" on a two-row table, the result is in
non-increasing created_at order. -/
theorem claim_C4_witness :
    ¬ strLower "foo" = "asc" ∧
    List.Pairwise (fun a b => ovalLeb (getCol b "created_at") (getCol a "created_at") = true)
      (runOp id db2 (SupabaseClient.read_records "t" "*" none none none
        (some [("created_at", "foo")]))).2 :=
  ⟨by decide, (claim_C4 id db2 "t" "*").2.2 "foo" (by decide)⟩

/-- C4 counterexample: with direction "foo" on a table holding created_at
values 1 then 2, the read returns the rows in descending order [2, 1], which
is not non-decreasing — refuting the claim that any literal other than "desc"
sorts ascending. -/
theorem claim_C4_counterexample :
    (runOp id db2 (SupabaseClient.read_records "t" "*" none none none
      (some [("created_at", "foo")]))).2 =
      [[("created_at", Value.vInt 2)], [("created_at", Value.vInt 1)]] ∧
    ¬ List.Pairwise (fun a b => ovalLeb (getCol a "created_at") (getCol b "created_at") = true)
      (runOp id db2 (SupabaseClient.read_records "t" "*" none none none
        (some [("created_at", "foo")]))).2 := by
  constructor
  · decide
  · intro hp
    have h12 := List.rel_of_pairwise_cons hp (List.mem_singleton.mpr rfl)
    revert h12
    decide

end SupabaseMCP
